import Mathlib

/-!
Shallow embedding of the LLM-Based Document Builder frontend
(`document-processing/frontend/src`): the `Chat` conversation component
(`App.js`), the `Upload` component (`components/Upload.js`) and the
`Complete` component (`components/Complete.js`).  Stateful React handlers
become pure state-transition functions; network responses become explicit
arguments; the user-interface guards (disabled inputs, conditionally
rendered buttons) become an enabledness predicate on events.
-/

namespace DocFiller

/-! ### JavaScript string primitives used by the components -/

/-- Model of JavaScript `String.prototype.includes`: substring containment. -/
def strIncludes (s pat : String) : Bool := decide (pat.data <:+: s.data)

/-- Model of JavaScript `String.prototype.endsWith`. -/
def strEndsWith (s pat : String) : Bool := List.isSuffixOf pat.data s.data

/-- Model of JavaScript `String.prototype.trim`: drop leading and trailing
whitespace. -/
def trimJS (s : String) : String :=
  String.mk (((s.data.dropWhile Char.isWhitespace).reverse.dropWhile
      Char.isWhitespace).reverse)

/-! ### Data model of the Chat component (`App.js`) -/

/-- The `type` tag of an entry of the `messages` state array. -/
inductive MsgType
  | bot
  | user
  | error
deriving DecidableEq

/-- One entry of the `messages` state array. -/
structure Msg where
  type : MsgType
  text : String
deriving DecidableEq

/-- One element of the `placeholders` array of a `/placeholders/{ref}`
response. -/
structure Placeholder where
  placeholder_id : String
  placeholder_name : String
  prompt_text : String
  status : String
deriving DecidableEq

/-- The `progress` object of a `/placeholders/{ref}` response. -/
structure ProgressData where
  filled : Nat
  auto_filled : Nat
  total : Nat
deriving DecidableEq

/-- A `/placeholders/{ref}` response body. -/
structure PlaceholdersData where
  progress : ProgressData
  placeholders : List Placeholder
deriving DecidableEq

/-- A `/fill_placeholder/{ref}/{id}` response body. -/
structure FillResponse where
  status : String
  normalized_value : String
  hint : String
  attempts : Nat
  value : String
deriving DecidableEq

/-- The JSON body the Chat component POSTs to `/fill_placeholder/{ref}/{id}`. -/
structure FillRequest where
  user_input : String
  consent_auto_suggest : Bool
deriving DecidableEq

/-- The `progress` state of the Chat component (`App.js` line 65). -/
structure ProgressState where
  filled : Nat
  total : Nat
deriving DecidableEq

/-- The state of the Chat component (`App.js` lines 62-67): `messages`,
`input`, `progress`, `currentPlaceholder`, `showAutoSuggest`.  The
transient `loading` flag is true only while a handler is in flight and is
reset in every `finally` block, so it is `false` at every state observed
between events and is omitted. -/
structure ChatState where
  messages : List Msg
  input : String
  progress : ProgressState
  currentPlaceholder : Option Placeholder
  showAutoSuggest : Bool
deriving DecidableEq

/-- Question text for a pending placeholder (`App.js` line 102):
`pending.prompt_text || `Please provide ${pending.placeholder_name}``. -/
def questionText (p : Placeholder) : String :=
  if p.prompt_text = "" then "Please provide " ++ p.placeholder_name
  else p.prompt_text

/-- Check from `App.js` line 101: the active placeholder is unchanged when the first
pending placeholder has the id of `currentPlaceholder`. -/
def samePlaceholder (cur : Option Placeholder) (pending : Placeholder) : Bool :=
  match cur with
  | some p => p.placeholder_id == pending.placeholder_id
  | none => false

/-- Model of `App.js` lines 103-114: append the question unless the last message is
already this very bot question. -/
def appendQuestion (msgs : List Msg) (q : String) : List Msg :=
  match msgs.getLast? with
  | some lastMsg =>
      if lastMsg.type = MsgType.bot ∧ lastMsg.text = q then msgs
      else msgs ++ [⟨MsgType.bot, q⟩]
  | none => msgs ++ [⟨MsgType.bot, q⟩]

/-- Model of `loadNextQuestion` (`App.js` lines 83-130) applied to a fetched
`/placeholders/{ref}` response: updates `progress` (combining `filled` and
`auto_filled`), finds the first pending placeholder, makes it current and
appends its question unless it would duplicate, and reports (second
component) whether `generateFinalDoc` is invoked because no placeholder is
pending. -/
def loadNextQuestion (s : ChatState) (data : PlaceholdersData) :
    ChatState × Bool :=
  let s1 := { s with progress :=
    ⟨data.progress.filled + data.progress.auto_filled, data.progress.total⟩ }
  match data.placeholders.find? (fun p => p.status == "pending") with
  | some pending =>
      if samePlaceholder s1.currentPlaceholder pending then
        ({ s1 with currentPlaceholder := some pending }, false)
      else
        ({ s1 with
            messages := appendQuestion s1.messages (questionText pending),
            currentPlaceholder := some pending }, false)
  | none => (s1, true)

/-- Bot message of the `accepted` branch (`App.js` line 161). -/
def acceptedMsg (v : String) : Msg :=
  ⟨MsgType.bot, "✓ Got it! Saved as: " ++ v⟩

/-- Bot message of the `rejected` branch (`App.js` line 169). -/
def rejectedMsg (hint : String) (attempts : Nat) : Msg :=
  ⟨MsgType.bot, "❌ " ++ hint ++ "\n\nPlease try again (Attempt " ++
    toString (attempts + 1) ++ "/2)"⟩

/-- Bot message of the `offer_auto_suggest` branch (`App.js` line 175). -/
def offerMsg : Msg :=
  ⟨MsgType.bot, "🤔 Having trouble? I can suggest a value based on the document context."⟩

/-- Bot message of the `auto_filled` branch (`App.js` line 182). -/
def autoFilledMsg (v : String) : Msg :=
  ⟨MsgType.bot, "✨ Auto-filled with: " ++ v⟩

/-- Bot message of `handleSkipAutoSuggest` (`App.js` line 201). -/
def skipMsg : Msg :=
  ⟨MsgType.bot, "Okay, please provide the value manually."⟩

/-- Bot message appended at the start of `generateFinalDoc` (`App.js`
line 249). -/
def generatingMsg : Msg :=
  ⟨MsgType.bot, "🎉 All placeholders filled! Generating final document..."⟩

/-- The status dispatch of `handleSubmit` (`App.js` lines 156-186), applied
to a parsed `/fill_placeholder` response.  The second component records
whether a `loadNextQuestion` call is scheduled (the `setTimeout` of the
`accepted` and `auto_filled` branches). -/
def handleSubmitResponse (s : ChatState) (d : FillResponse) :
    ChatState × Bool :=
  if d.status = "accepted" then
    ({ s with
        messages := s.messages ++ [acceptedMsg d.normalized_value],
        showAutoSuggest := false }, true)
  else if d.status = "rejected" then
    ({ s with messages := s.messages ++ [rejectedMsg d.hint d.attempts] },
      false)
  else if d.status = "offer_auto_suggest" then
    ({ s with
        messages := s.messages ++ [offerMsg],
        showAutoSuggest := true }, false)
  else if d.status = "auto_filled" then
    ({ s with
        messages := s.messages ++ [autoFilledMsg d.value],
        showAutoSuggest := false }, true)
  else (s, false)

/-- Model of `handleSubmit` (`App.js` lines 132-195) applied to the response `d`
eventually returned by the POST.  Returns the new state, the request body
sent (`none` when the early return at line 134 fires and no network call
is made), and whether a `loadNextQuestion` call is scheduled. -/
def handleSubmit (s : ChatState) (d : FillResponse) :
    ChatState × Option FillRequest × Bool :=
  if trimJS s.input = "" ∨ s.currentPlaceholder = none then (s, none, false)
  else
    let userMessage := trimJS s.input
    let req : FillRequest := ⟨userMessage, s.showAutoSuggest⟩
    let s1 := { s with
      input := "",
      messages := s.messages ++ [⟨MsgType.user, userMessage⟩] }
    let r := handleSubmitResponse s1 d
    (r.1, some req, r.2)

/-- Model of `handleSkipAutoSuggest` (`App.js` lines 197-203). -/
def handleSkipAutoSuggest (s : ChatState) : ChatState :=
  { s with showAutoSuggest := false, messages := s.messages ++ [skipMsg] }

/-- Model of `handleAcceptAutoSuggest` (`App.js` lines 205-243) applied to the
response `d`: appends the user acknowledgement, sets `input` to `"dummy"`,
sends the body `{user_input: "auto", consent_auto_suggest: true}`, and on
an `auto_filled` response records the value and schedules
`loadNextQuestion` (third component). -/
def handleAcceptAutoSuggest (s : ChatState) (d : FillResponse) :
    ChatState × FillRequest × Bool :=
  let s1 := { s with
    messages := s.messages ++ [⟨MsgType.user, "(Accept auto-suggestion)"⟩],
    input := "dummy", showAutoSuggest := true }
  let req : FillRequest := ⟨"auto", true⟩
  if d.status = "auto_filled" then
    ({ s1 with
        messages := s1.messages ++ [autoFilledMsg d.value],
        showAutoSuggest := false }, req, true)
  else (s1, req, false)

/-! ### App-level state and the trace semantics -/

/-- The `step` state of the `App` component (`App.js` line 8). -/
inductive Step
  | upload
  | chat
  | complete
deriving DecidableEq

/-- Outcome of the POST to `/generate_final_doc/{ref}`: an `ok` response
carrying `final_document`, or a non-ok / failed response. -/
inductive GenResult
  | ok (finalDocument : String)
  | failed (error : String)
deriving DecidableEq

/-- Combined state of the `App` component and its mounted `Chat` child,
with a counter of how many times `generateFinalDoc` has been invoked (the
"fulfillment complete" signal). -/
structure AppState where
  step : Step
  chat : ChatState
  finalDocument : String
  genCalls : Nat
deriving DecidableEq

/-- Error message of the non-ok branch of `generateFinalDoc` (`App.js`
line 264). -/
def errorGenMsg (e : String) : Msg :=
  ⟨MsgType.error, "Error generating document: " ++ e⟩

/-- Model of `generateFinalDoc` (`App.js` lines 245-275): appends the generating
message, and on `ok` hands the document to `onComplete`, which moves the
App to the `complete` step (`App.js` lines 19-22). -/
def generateFinalDoc (a : AppState) (r : GenResult) : AppState :=
  let a1 := { a with
    chat := { a.chat with messages := a.chat.messages ++ [generatingMsg] },
    genCalls := a.genCalls + 1 }
  match r with
  | GenResult.ok doc => { a1 with step := Step.complete, finalDocument := doc }
  | GenResult.failed e =>
      { a1 with chat :=
          { a1.chat with messages := a1.chat.messages ++ [errorGenMsg e] } }

/-- A full `loadNextQuestion` call at App level: runs the Chat update and,
when no placeholder is pending, the `generateFinalDoc` call with outcome
`gen`. -/
def doLoad (a : AppState) (data : PlaceholdersData) (gen : GenResult) :
    AppState :=
  let r := loadNextQuestion a.chat data
  let a1 := { a with chat := r.1 }
  if r.2 then generateFinalDoc a1 gen else a1

/-- User-interface events on the Chat screen.  Each event carries the
response data its network calls will receive; `next`/`gen` are consumed by
the `loadNextQuestion` call scheduled by an `accepted`/`auto_filled`
response. -/
inductive Event
  | typeInput (text : String)
  | submitForm (resp : FillResponse) (next : PlaceholdersData) (gen : GenResult)
  | acceptSuggest (resp : FillResponse) (next : PlaceholdersData) (gen : GenResult)
  | skipSuggest
deriving DecidableEq

/-- Whether the user interface lets an event fire: the Chat component is
rendered only while `step` equals `chat` (`App.js` lines 37-43); the text
input and Send button are disabled while `showAutoSuggest` is set
(`App.js` lines 345 and 350); the Accept/Fill-manually buttons are
rendered only while `showAutoSuggest` is set (`App.js` lines 328-337). -/
def enabled (a : AppState) : Event → Bool
  | Event.typeInput _ => decide (a.step = Step.chat) && !a.chat.showAutoSuggest
  | Event.submitForm _ _ _ =>
      decide (a.step = Step.chat) && !a.chat.showAutoSuggest
  | Event.acceptSuggest _ _ _ =>
      decide (a.step = Step.chat) && a.chat.showAutoSuggest
  | Event.skipSuggest => decide (a.step = Step.chat) && a.chat.showAutoSuggest

/-- Effect of an event, together with the list of `/fill_placeholder`
request bodies it sends. -/
def applyEvent (a : AppState) : Event → AppState × List FillRequest
  | Event.typeInput t => ({ a with chat := { a.chat with input := t } }, [])
  | Event.submitForm resp next gen =>
      let r := handleSubmit a.chat resp
      let a1 := { a with chat := r.1 }
      (if r.2.2 then doLoad a1 next gen else a1, r.2.1.toList)
  | Event.acceptSuggest resp next gen =>
      let r := handleAcceptAutoSuggest a.chat resp
      let a1 := { a with chat := r.1 }
      (if r.2.2 then doLoad a1 next gen else a1, [r.2.1])
  | Event.skipSuggest => ({ a with chat := handleSkipAutoSuggest a.chat }, [])

/-- One guarded step: a disabled event leaves the state unchanged. -/
def stepEvt (a : AppState) (e : Event) : AppState :=
  if enabled a e then (applyEvent a e).1 else a

/-- Request bodies sent by one guarded step. -/
def emitted (a : AppState) (e : Event) : List FillRequest :=
  if enabled a e then (applyEvent a e).2 else []

/-- Run a list of events. -/
def runTrace (a : AppState) (evts : List Event) : AppState :=
  evts.foldl stepEvt a

/-- Initial Chat state (`App.js` lines 62-67). -/
def initialChat : ChatState := ⟨[], "", ⟨0, 0⟩, none, false⟩

/-- State right after the Chat screen mounts: the `useEffect` at
`App.js` lines 78-81 fires the initial `loadNextQuestion`. -/
def initApp (data : PlaceholdersData) (gen : GenResult) : AppState :=
  doLoad ⟨Step.chat, initialChat, "", 0⟩ data gen

/-! ### The Complete component (`components/Complete.js`) -/

/-- Model of `Complete.js` line 6: the view computes whether the final
document is a draft by testing that its filename contains `draft`. -/
def isDraft (finalDocument : String) : Bool := strIncludes finalDocument "draft"

/-- The draft notice conditionally rendered at `Complete.js` lines 25-29. -/
def completeViewNotices (finalDocument : String) : List String :=
  if isDraft finalDocument then
    ["⚠️ This is a draft document (contains auto-filled values)"]
  else []

/-! ### Spec-modelled backend classification -/

/-- Modelled from the spec: the backend `generate_final_doc` step
(`src/app.py`, not included in the repository snapshot) classifies a
completed session as `draft` iff at least one placeholder has status
`auto_filled` and as `final` iff every placeholder is `accepted`
(spec §6, §8). -/
def classifyDraft (phs : List Placeholder) : Bool :=
  phs.any (fun p => p.status == "auto_filled")

/-- Modelled from the spec: the `final` classification (spec §6, §8). -/
def classifyFinal (phs : List Placeholder) : Bool :=
  phs.all (fun p => p.status == "accepted")

/-- Modelled from the spec: the backend names the produced file with a
`draft` marker exactly when the classification is draft, so that the
substring test of the Complete view reads the classification back
(TESTING.md names the final file `final_document.docx`). -/
def finalDocFilename (phs : List Placeholder) : String :=
  if classifyDraft phs then "final_document_draft.docx"
  else "final_document.docx"

/-! ### The Upload component (`components/Upload.js`) -/

/-- A selected or dropped browser file. -/
structure JsFile where
  name : String
  size : Nat
deriving DecidableEq

/-- State of the Upload component (`Upload.js` lines 5-8). -/
structure UploadState where
  file : Option JsFile
  uploading : Bool
  error : String
  dragOver : Bool
deriving DecidableEq

/-- Error message of `handleFileChange` (`Upload.js` line 16). -/
def selectErrMsg : String := "Please select a .docx file"

/-- Error message of `handleDrop` (`Upload.js` line 29). -/
def dropErrMsg : String := "Please drop a .docx file"

/-- Model of `handleFileChange` (`Upload.js` lines 10-18); `selected` is
`e.target.files[0]`, `none` when no file is present. -/
def handleFileChange (s : UploadState) (selected : Option JsFile) :
    UploadState :=
  match selected with
  | some f =>
      if strEndsWith f.name ".docx" then { s with file := some f, error := "" }
      else { s with error := selectErrMsg }
  | none => { s with error := selectErrMsg }

/-- Model of `handleDrop` (`Upload.js` lines 20-31). -/
def handleDrop (s : UploadState) (dropped : Option JsFile) : UploadState :=
  let s1 := { s with dragOver := false }
  match dropped with
  | some f =>
      if strEndsWith f.name ".docx" then { s1 with file := some f, error := "" }
      else { s1 with error := dropErrMsg }
  | none => { s1 with error := dropErrMsg }

/-- The guard of `handleUpload` (`Upload.js` lines 33-40): with no chosen
file it returns before any network call; otherwise it marks uploading and
sends the chosen file. -/
def handleUpload (s : UploadState) : UploadState × Option JsFile :=
  match s.file with
  | none => (s, none)
  | some f => ({ s with uploading := true, error := "" }, some f)

/-! ### Progress display (`App.js` lines 277-291) -/

/-- Model of `progressPercent` (`App.js` lines 277-279), over exact rationals. -/
def progressPercent (p : ProgressState) : ℚ :=
  if 0 < p.total then ((p.filled : ℚ) / (p.total : ℚ)) * 100 else 0

/-! ### Derived predicates -/

/-- No two consecutive messages are the same bot message: the question of
a placeholder never appears twice in a row. -/
def NoDupBotRun (msgs : List Msg) : Prop :=
  List.Chain'
    (fun m1 m2 =>
      ¬(m1.type = MsgType.bot ∧ m2.type = MsgType.bot ∧ m1.text = m2.text))
    msgs

/-! ### Concrete sample data for witnesses -/

/-- A resolved placeholder. -/
def phAccepted : Placeholder := ⟨"p0", "Investor Name", "", "accepted"⟩

/-- A pending placeholder. -/
def phPending : Placeholder := ⟨"p1", "Company Name", "", "pending"⟩

/-- A second pending placeholder. -/
def phPending2 : Placeholder := ⟨"p2", "Date of Agreement", "", "pending"⟩

/-- An auto-filled placeholder. -/
def phAuto : Placeholder := ⟨"p2", "Date of Agreement", "", "auto_filled"⟩

/-- A placeholder-list response with one resolved and two pending entries. -/
def sampleData : PlaceholdersData :=
  ⟨⟨1, 0, 3⟩, [phAccepted, phPending, phPending2]⟩

/-- A fresh Chat state. -/
def sampleChat : ChatState := ⟨[], "", ⟨0, 3⟩, none, false⟩

/-- A one-placeholder session. -/
def c1Data : PlaceholdersData := ⟨⟨0, 0, 1⟩, [phPending]⟩

/-- The same session with its placeholder auto-filled. -/
def c1DoneData : PlaceholdersData := ⟨⟨0, 1, 1⟩, [phAuto]⟩

/-- A successful final-document generation. -/
def c1Gen : GenResult := GenResult.ok "final_document.docx"

/-- An `offer_auto_suggest` response. -/
def offerResp : FillResponse := ⟨"offer_auto_suggest", "", "", 2, ""⟩

/-- A `rejected` response. -/
def rejResp : FillResponse := ⟨"rejected", "", "Expected a calendar date", 0, ""⟩

/-- An `auto_filled` response. -/
def autoResp : FillResponse := ⟨"auto_filled", "", "", 2, "Acme Inc."⟩

/-- An `accepted` response. -/
def acceptedResp : FillResponse := ⟨"accepted", "Acme Inc.", "", 0, ""⟩

/-- A response with a status outside the documented vocabulary. -/
def bogusResp : FillResponse := ⟨"weird_status", "", "", 0, ""⟩

/-- A trace: type an answer, submit it, receive an auto-suggest offer. -/
def c1Evts : List Event :=
  [Event.typeInput "x", Event.submitForm offerResp c1Data c1Gen]

/-- The user clicks the Accept Auto-Suggestion button. -/
def c1Accept : Event := Event.acceptSuggest autoResp c1DoneData c1Gen

/-- The request body `handleAcceptAutoSuggest` sends. -/
def c1Req : FillRequest := ⟨"auto", true⟩

/-- A Chat state whose input is whitespace only. -/
def wsChat : ChatState := ⟨[], " \t ", ⟨0, 1⟩, some phPending, false⟩

/-- An App state on the chat screen with whitespace-only input. -/
def wsApp : AppState := ⟨Step.chat, wsChat, "", 0⟩

/-- An App state that has entered the completion view. -/
def doneApp : AppState :=
  ⟨Step.complete, ⟨[], "", ⟨1, 1⟩, some phAccepted, false⟩,
    "final_document.docx", 1⟩

/-- A placeholder-list response with nothing pending. -/
def noPendingData : PlaceholdersData := ⟨⟨1, 0, 1⟩, [phAccepted]⟩

/-- A sample browser file with the wrong extension. -/
def pdfFile : JsFile := ⟨"contract.pdf", 100⟩

/-- A sample browser file with the right extension. -/
def docxFile : JsFile := ⟨"contract.docx", 100⟩

/-- A fresh Upload state. -/
def sampleUpload : UploadState := ⟨none, false, "", false⟩

/-- A Chat state already showing the question of `phPending`. -/
def c9Chat : ChatState :=
  ⟨[⟨MsgType.bot, "Please provide Company Name"⟩], "", ⟨1, 3⟩,
    some phPending, false⟩

/-! ## Helper lemmas -/

theorem find?_first {α : Type} (pred : α → Bool) :
    ∀ (l : List α) (x : α), l.find? pred = some x →
      ∃ i, l.get? i = some x ∧ pred x = true ∧
        ∀ j, j < i → ∀ q, l.get? j = some q → pred q = false := by
  intro l
  induction l with
  | nil => intro x h; simp at h
  | cons a t ih =>
      intro x h
      cases hpa : pred a with
      | true =>
          rw [List.find?_cons_of_pos _ hpa] at h
          obtain rfl : a = x := by injection h
          exact ⟨0, rfl, hpa, fun j hj q hq => absurd hj (Nat.not_lt_zero j)⟩
      | false =>
          rw [List.find?_cons_of_neg _ (by simp [hpa])] at h
          obtain ⟨i, hi, hx, hall⟩ := ih x h
          refine ⟨i + 1, by simpa using hi, hx, ?_⟩
          intro j hj q hq
          match j with
          | 0 =>
              obtain rfl : a = q := by injection hq
              exact hpa
          | j' + 1 =>
              exact hall j' (by omega) q (by simpa using hq)

theorem trimJS_of_all_whitespace (t : String)
    (h : ∀ c ∈ t.data, c.isWhitespace) : trimJS t = "" := by
  unfold trimJS
  rw [List.dropWhile_eq_nil_iff.mpr h]
  rfl

/-! ## C2: the fixed status vocabulary -/

/-- C2: the status dispatch of `handleSubmit` recognises exactly
`accepted`, `rejected`, `offer_auto_suggest` and `auto_filled`: each of
the four appends a message to the conversation, and a response with any
other status changes nothing — no message is appended and the state is
returned unchanged. -/
theorem submit_status_vocabulary (s : ChatState) (d : FillResponse) :
    (d.status ∉ (["accepted", "rejected", "offer_auto_suggest",
        "auto_filled"] : List String) →
      handleSubmitResponse s d = (s, false)) ∧
    (d.status ∈ (["accepted", "rejected", "offer_auto_suggest",
        "auto_filled"] : List String) →
      ∃ m, (handleSubmitResponse s d).1.messages = s.messages ++ [m]) := by
  constructor
  · intro h
    simp only [List.mem_cons, List.not_mem_nil, or_false, not_or] at h
    obtain ⟨h1, h2, h3, h4⟩ := h
    simp [handleSubmitResponse, h1, h2, h3, h4]
  · intro h
    simp only [List.mem_cons, List.not_mem_nil, or_false] at h
    rcases h with h | h | h | h
    · exact ⟨acceptedMsg d.normalized_value, by simp [handleSubmitResponse, h]⟩
    · exact ⟨rejectedMsg d.hint d.attempts, by simp [handleSubmitResponse, h]⟩
    · exact ⟨offerMsg, by simp [handleSubmitResponse, h]⟩
    · exact ⟨autoFilledMsg d.value, by simp [handleSubmitResponse, h]⟩

/-- Witness for C2 at concrete inputs: the out-of-vocabulary status
`weird_status` changes nothing, and an `accepted` response appends a
message. -/
theorem submit_status_vocabulary_witness :
    handleSubmitResponse sampleChat bogusResp = (sampleChat, false) ∧
    ∃ m, (handleSubmitResponse sampleChat acceptedResp).1.messages
        = sampleChat.messages ++ [m] :=
  ⟨(submit_status_vocabulary sampleChat bogusResp).1 (by decide),
    (submit_status_vocabulary sampleChat acceptedResp).2 (by decide)⟩

/-! ## C4: the active placeholder is the first pending one -/

/-- C4: after `loadNextQuestion` processes a placeholder list whose first
pending element is `p`, the active placeholder (`currentPlaceholder`, the
one whose question is asked and to which the next submission goes) is
exactly `p`; `p` is pending and every element before it in the list is
not pending, so placeholders are resolved in list order.  The state holds
a single `Option Placeholder`, so at most one placeholder is active. -/
theorem active_is_first_pending (s : ChatState) (data : PlaceholdersData)
    (p : Placeholder)
    (h : data.placeholders.find? (fun q => q.status == "pending") = some p) :
    (loadNextQuestion s data).1.currentPlaceholder = some p ∧
    p.status = "pending" ∧
    ∃ i, data.placeholders.get? i = some p ∧
      ∀ j, j < i → ∀ q, data.placeholders.get? j = some q →
        q.status ≠ "pending" := by
  obtain ⟨i, hi, hx, hall⟩ := find?_first _ data.placeholders p h
  refine ⟨?_, by simpa using hx, i, hi, ?_⟩
  · unfold loadNextQuestion
    rw [h]
    dsimp only
    split <;> rfl
  · intro j hj q hq
    simpa using hall j hj q hq

/-- Witness for C4: in `sampleData` the first pending placeholder is
`phPending` and it becomes active. -/
theorem active_is_first_pending_witness :
    (loadNextQuestion sampleChat sampleData).1.currentPlaceholder
        = some phPending ∧
    phPending.status = "pending" ∧
    ∃ i, sampleData.placeholders.get? i = some phPending ∧
      ∀ j, j < i → ∀ q, sampleData.placeholders.get? j = some q →
        q.status ≠ "pending" :=
  active_is_first_pending sampleChat sampleData phPending (by decide)

/-! ## C6: combined progress count and completion percentage -/

theorem loadNextQuestion_progress (s : ChatState) (data : PlaceholdersData) :
    (loadNextQuestion s data).1.progress
      = ⟨data.progress.filled + data.progress.auto_filled,
          data.progress.total⟩ := by
  unfold loadNextQuestion
  dsimp only
  split
  · split <;> rfl
  · rfl

/-- C6: `loadNextQuestion` stores `filled + auto_filled` as the displayed
completed count (the backend reports the two counts separately and the
caller combines them), keeps `total`, and the displayed completion
percentage is `(filled + auto_filled) / total * 100` when `total > 0` and
`0` when `total = 0`. -/
theorem progress_combined_ratio (s : ChatState) (data : PlaceholdersData) :
    (loadNextQuestion s data).1.progress.filled
        = data.progress.filled + data.progress.auto_filled ∧
    (loadNextQuestion s data).1.progress.total = data.progress.total ∧
    progressPercent (loadNextQuestion s data).1.progress
        = (if 0 < data.progress.total then
            (((data.progress.filled : ℚ) + (data.progress.auto_filled : ℚ))
                / (data.progress.total : ℚ)) * 100
           else 0) := by
  have hp := loadNextQuestion_progress s data
  refine ⟨by rw [hp], by rw [hp], ?_⟩
  rw [hp]
  by_cases ht : 0 < data.progress.total
  · simp only [progressPercent, ht, if_pos]
    push_cast
    try ring
  · simp [progressPercent, ht]

/-! ## C7: whitespace-only input is rejected before any call -/

/-- C7: submitting an input that is empty or whitespace-only changes no
state and sends no request: `handleSubmit` returns early before appending
any message or contacting the backend, so the submission cannot be
counted as an attempt; at App level the submit event leaves the state
untouched and emits no request body. -/
theorem whitespace_submit_noop (a : AppState) (d : FillResponse)
    (next : PlaceholdersData) (gen : GenResult)
    (h : ∀ c ∈ a.chat.input.data, c.isWhitespace) :
    handleSubmit a.chat d = (a.chat, none, false) ∧
    stepEvt a (Event.submitForm d next gen) = a ∧
    emitted a (Event.submitForm d next gen) = [] := by
  have ht : trimJS a.chat.input = "" := trimJS_of_all_whitespace _ h
  have hs : handleSubmit a.chat d = (a.chat, none, false) := by
    unfold handleSubmit
    rw [if_pos (Or.inl ht)]
  have happ : applyEvent a (Event.submitForm d next gen) = (a, []) := by
    simp [applyEvent, hs]
  exact ⟨hs, by simp [stepEvt, happ], by simp [emitted, happ]⟩

/-- Witness for C7: a concrete whitespace-only input is a complete
no-op. -/
theorem whitespace_submit_noop_witness :
    handleSubmit wsApp.chat rejResp = (wsApp.chat, none, false) ∧
    stepEvt wsApp (Event.submitForm rejResp c1Data c1Gen) = wsApp ∧
    emitted wsApp (Event.submitForm rejResp c1Data c1Gen) = [] :=
  whitespace_submit_noop wsApp rejResp c1Data c1Gen (by decide)

/-! ## C10: only `.docx` files are accepted for upload -/

/-- C10: a file is accepted only when its name ends with `.docx`: any
other selected or dropped file leaves the chosen-file state unchanged and
sets the error message instead (likewise when no file is present), and
invoking upload with no chosen file performs no network call and changes
nothing. -/
theorem upload_docx_only (s : UploadState) (f : JsFile) :
    (strEndsWith f.name ".docx" = false →
      (handleFileChange s (some f)).file = s.file ∧
      (handleFileChange s (some f)).error = selectErrMsg ∧
      (handleDrop s (some f)).file = s.file ∧
      (handleDrop s (some f)).error = dropErrMsg) ∧
    (strEndsWith f.name ".docx" = true →
      (handleFileChange s (some f)).file = some f ∧
      (handleDrop s (some f)).file = some f) ∧
    (handleFileChange s none).file = s.file ∧
    (handleDrop s none).file = s.file ∧
    (s.file = none → handleUpload s = (s, none)) := by
  refine ⟨?_, ?_, rfl, rfl, ?_⟩
  · intro h
    simp [handleFileChange, handleDrop, h]
  · intro h
    simp [handleFileChange, handleDrop, h]
  · intro h
    unfold handleUpload
    rw [h]

/-- Witness for C10: a `.pdf` file is refused with the error message, a
`.docx` file is accepted, and upload without a chosen file is a no-op. -/
theorem upload_docx_only_witness :
    ((handleFileChange sampleUpload (some pdfFile)).file = sampleUpload.file ∧
      (handleFileChange sampleUpload (some pdfFile)).error = selectErrMsg ∧
      (handleDrop sampleUpload (some pdfFile)).file = sampleUpload.file ∧
      (handleDrop sampleUpload (some pdfFile)).error = dropErrMsg) ∧
    ((handleFileChange sampleUpload (some docxFile)).file = some docxFile ∧
      (handleDrop sampleUpload (some docxFile)).file = some docxFile) ∧
    handleUpload sampleUpload = (sampleUpload, none) :=
  ⟨(upload_docx_only sampleUpload pdfFile).1 (by decide),
    (upload_docx_only sampleUpload docxFile).2.1 (by decide),
    (upload_docx_only sampleUpload docxFile).2.2.2.2 (by decide)⟩

/-! ## C3: draft classification and the completion view -/

/-- C3: a completed session is classified draft iff some placeholder is
`auto_filled` and final iff every placeholder is `accepted`
(backend classification modelled from the spec); the Complete view shows
the draft notice exactly when the classification is draft, because the
produced filename contains the substring `draft` exactly then and the
view tests whether the filename contains the substring `draft`). -/
theorem draft_classification (phs : List Placeholder)
    (hdone : ∀ p ∈ phs, p.status = "accepted" ∨ p.status = "auto_filled") :
    (classifyDraft phs = true ↔ ∃ p ∈ phs, p.status = "auto_filled") ∧
    (classifyFinal phs = true ↔ ∀ p ∈ phs, p.status = "accepted") ∧
    isDraft (finalDocFilename phs) = classifyDraft phs ∧
    (completeViewNotices (finalDocFilename phs) ≠ [] ↔
      classifyDraft phs = true) ∧
    (classifyFinal phs = true ↔ classifyDraft phs = false) := by
  have h1 : classifyDraft phs = true ↔ ∃ p ∈ phs, p.status = "auto_filled" := by
    simp [classifyDraft]
  have h2 : classifyFinal phs = true ↔ ∀ p ∈ phs, p.status = "accepted" := by
    simp [classifyFinal]
  have h3 : isDraft (finalDocFilename phs) = classifyDraft phs := by
    cases hcd : classifyDraft phs
    · simp only [finalDocFilename, hcd, Bool.false_eq_true, if_false]
      decide
    · simp only [finalDocFilename, hcd, if_true]
      decide
  have h4 : completeViewNotices (finalDocFilename phs) ≠ [] ↔
      classifyDraft phs = true := by
    unfold completeViewNotices
    rw [h3]
    cases hcd : classifyDraft phs <;> simp
  have h5 : classifyFinal phs = true ↔ classifyDraft phs = false := by
    constructor
    · intro hall
      by_contra hne
      have hcd : classifyDraft phs = true := by
        cases hq : classifyDraft phs
        · exact absurd hq hne
        · rfl
      obtain ⟨p, hp, hps⟩ := h1.mp hcd
      have ha := h2.mp hall p hp
      rw [ha] at hps
      exact absurd hps (by decide)
    · intro hcd
      refine h2.mpr fun p hp => ?_
      rcases hdone p hp with h | h
      · exact h
      · exact absurd (h1.mpr ⟨p, hp, h⟩) (by simp [hcd])
  exact ⟨h1, h2, h3, h4, h5⟩

/-- Witness for C3: one auto-filled placeholder makes the filename carry
`draft` and the notice appear; an all-accepted session is final and not
draft. -/
theorem draft_classification_witness :
    (isDraft (finalDocFilename [phAccepted, phAuto])
        = classifyDraft [phAccepted, phAuto] ∧
      (completeViewNotices (finalDocFilename [phAccepted, phAuto]) ≠ [] ↔
        classifyDraft [phAccepted, phAuto] = true)) ∧
    (classifyFinal [phAccepted] = true ↔ classifyDraft [phAccepted] = false) :=
  ⟨⟨(draft_classification [phAccepted, phAuto] (by decide)).2.2.1,
     (draft_classification [phAccepted, phAuto] (by decide)).2.2.2.1⟩,
    (draft_classification [phAccepted] (by decide)).2.2.2.2⟩

/-! ## C9: no duplicate question on reload -/

theorem appendQuestion_last_eq (msgs : List Msg) (q : String)
    (h : msgs.getLast? = some ⟨MsgType.bot, q⟩) :
    appendQuestion msgs q = msgs := by
  unfold appendQuestion
  rw [h]
  dsimp only
  rw [if_pos ⟨rfl, rfl⟩]

theorem chain'_append_one (msgs : List Msg) (x : Msg)
    (h : NoDupBotRun msgs)
    (hx : ∀ lastMsg, msgs.getLast? = some lastMsg →
      ¬(lastMsg.type = MsgType.bot ∧ x.type = MsgType.bot ∧
          lastMsg.text = x.text)) :
    NoDupBotRun (msgs ++ [x]) := by
  unfold NoDupBotRun at h ⊢
  rw [List.chain'_append]
  refine ⟨h, List.chain'_singleton _, ?_⟩
  intro a ha y hy
  rw [Option.mem_def] at ha hy
  rw [List.head?_cons] at hy
  injection hy with hy'
  subst hy'
  exact hx a ha

theorem appendQuestion_noDup (msgs : List Msg) (q : String)
    (h : NoDupBotRun msgs) : NoDupBotRun (appendQuestion msgs q) := by
  unfold appendQuestion
  cases hlast : msgs.getLast? with
  | none =>
      refine chain'_append_one msgs _ h ?_
      intro lm hl
      rw [hlast] at hl
      exact absurd hl (by simp)
  | some lastMsg =>
      dsimp only
      by_cases hcond : lastMsg.type = MsgType.bot ∧ lastMsg.text = q
      · rw [if_pos hcond]
        exact h
      · rw [if_neg hcond]
        refine chain'_append_one msgs _ h ?_
        intro lm hl
        have hl2 : lastMsg = lm := by
          rw [hlast] at hl
          injection hl
        subst hl2
        intro hc
        exact hcond ⟨hc.1, hc.2.2⟩

/-- C9: loading the next question is idempotent for the conversation: if
the first pending placeholder is already the active one, or the last
message already is the question of that placeholder, nothing is appended;
and a reload never creates two equal consecutive bot messages, so a
question of a placeholder appears at most once consecutively. -/
theorem load_question_idempotent (s : ChatState) (data : PlaceholdersData)
    (p : Placeholder)
    (hp : data.placeholders.find? (fun q => q.status == "pending") = some p) :
    (samePlaceholder s.currentPlaceholder p = true →
      (loadNextQuestion s data).1.messages = s.messages) ∧
    (s.messages.getLast? = some ⟨MsgType.bot, questionText p⟩ →
      (loadNextQuestion s data).1.messages = s.messages) ∧
    (NoDupBotRun s.messages →
      NoDupBotRun (loadNextQuestion s data).1.messages) := by
  refine ⟨?_, ?_, ?_⟩
  · intro hsame
    simp [loadNextQuestion, hp, hsame]
  · intro hlast
    by_cases hsame : samePlaceholder s.currentPlaceholder p = true
    · simp [loadNextQuestion, hp, hsame]
    · have hb : samePlaceholder s.currentPlaceholder p = false := by
        cases hq : samePlaceholder s.currentPlaceholder p
        · rfl
        · exact absurd hq hsame
      simp [loadNextQuestion, hp, hb, appendQuestion_last_eq _ _ hlast]
  · intro hnd
    unfold loadNextQuestion
    rw [hp]
    dsimp only
    split
    · exact hnd
    · exact appendQuestion_noDup _ _ hnd

/-- Witness for C9: reloading while the question is already the last
message appends nothing and keeps the no-consecutive-duplicate shape. -/
theorem load_question_idempotent_witness :
    (loadNextQuestion c9Chat sampleData).1.messages = c9Chat.messages ∧
    NoDupBotRun (loadNextQuestion c9Chat sampleData).1.messages :=
  ⟨(load_question_idempotent c9Chat sampleData phPending (by decide)).2.1
      (by decide),
    (load_question_idempotent c9Chat sampleData phPending (by decide)).2.2
      (List.chain'_singleton _)⟩

/-! ## C5: the completion signal fires once -/

theorem stepEvt_of_complete (a : AppState) (e : Event)
    (h : a.step = Step.complete) : stepEvt a e = a := by
  have hne : enabled a e = false := by
    cases e <;> simp [enabled, h]
  simp [stepEvt, hne]

theorem runTrace_of_complete (a : AppState) (evts : List Event)
    (h : a.step = Step.complete) : runTrace a evts = a := by
  induction evts with
  | nil => rfl
  | cons e t ih =>
      rw [runTrace, List.foldl_cons, stepEvt_of_complete a e h]
      exact ih

/-- C5: when the placeholder list has no pending entry, `loadNextQuestion`
invokes `generateFinalDoc` instead of asking a question (the signal
counter increments by exactly one, the active placeholder is untouched,
and the only new messages are the generating banner and possibly an error
report), and once the completion view is entered every event is disabled,
so no trace ever emits the signal a second time. -/
theorem completion_signal_once (a : AppState) (data : PlaceholdersData)
    (gen : GenResult) (evts : List Event)
    (hnp : data.placeholders.find? (fun q => q.status == "pending") = none) :
    ((doLoad a data gen).genCalls = a.genCalls + 1 ∧
      (doLoad a data gen).chat.currentPlaceholder
          = a.chat.currentPlaceholder ∧
      ∃ rest, (doLoad a data gen).chat.messages
          = a.chat.messages ++ generatingMsg :: rest ∧
        ∀ m ∈ rest, m.type = MsgType.error) ∧
    (a.step = Step.complete →
      runTrace a evts = a ∧ (runTrace a evts).genCalls = a.genCalls) := by
  constructor
  · cases gen with
    | ok doc =>
        refine ⟨?_, ?_, [], ?_, by simp⟩ <;>
          simp [doLoad, loadNextQuestion, hnp, generateFinalDoc]
    | failed e =>
        refine ⟨?_, ?_, [errorGenMsg e], ?_, by simp [errorGenMsg]⟩ <;>
          simp [doLoad, loadNextQuestion, hnp, generateFinalDoc]
  · intro h
    exact ⟨runTrace_of_complete a evts h,
      by rw [runTrace_of_complete a evts h]⟩

/-- Witness for C5: with nothing pending the signal fires once, and from
the completion view a further event changes nothing. -/
theorem completion_signal_once_witness :
    ((doLoad doneApp noPendingData c1Gen).genCalls = doneApp.genCalls + 1 ∧
      (doLoad doneApp noPendingData c1Gen).chat.currentPlaceholder
          = doneApp.chat.currentPlaceholder ∧
      ∃ rest, (doLoad doneApp noPendingData c1Gen).chat.messages
          = doneApp.chat.messages ++ generatingMsg :: rest ∧
        ∀ m ∈ rest, m.type = MsgType.error) ∧
    (runTrace doneApp [Event.skipSuggest] = doneApp ∧
      (runTrace doneApp [Event.skipSuggest]).genCalls = doneApp.genCalls) :=
  ⟨(completion_signal_once doneApp noPendingData c1Gen [Event.skipSuggest]
      (by decide)).1,
    (completion_signal_once doneApp noPendingData c1Gen [Event.skipSuggest]
      (by decide)).2 rfl⟩

/-! ## C8: rejection hints and the offer message -/

set_option maxRecDepth 8192

/-- C8 counterexample: in a concrete session, at the moment the
auto-suggest offer has been made and consent has become possible
(`showAutoSuggest` is set and the consent buttons render), no message of
the conversation says the suggested value is a best guess or may be
wrong — so the offer is not preceded by a message describing that
tradeoff. -/
theorem offer_no_tradeoff_counterexample :
    (runTrace (initApp c1Data c1Gen) c1Evts).chat.showAutoSuggest = true ∧
    ((runTrace (initApp c1Data c1Gen) c1Evts).chat.messages.all
      (fun m => !(strIncludes m.text "best guess")
          && !(strIncludes m.text "may be wrong"))) = true := by
  constructor <;> decide

/-- C8 amended: every rejection is rendered with its corrective hint
embedded in the message, and every `offer_auto_suggest` response appends
the fixed offer message — which offers a suggestion based on the document
context but does not state that the value is a best guess or may be
wrong — and sets `showAutoSuggest` in the same step, before any consent
can be given. -/
theorem rejection_hint_offer_text (s : ChatState) (d : FillResponse) :
    (d.status = "rejected" →
      (handleSubmitResponse s d).1.messages
          = s.messages ++ [rejectedMsg d.hint d.attempts] ∧
      strIncludes (rejectedMsg d.hint d.attempts).text d.hint = true) ∧
    (d.status = "offer_auto_suggest" →
      (handleSubmitResponse s d).1.messages = s.messages ++ [offerMsg] ∧
      (handleSubmitResponse s d).1.showAutoSuggest = true) := by
  constructor
  · intro h
    refine ⟨by simp [handleSubmitResponse, h], ?_⟩
    unfold strIncludes rejectedMsg
    rw [decide_eq_true_eq]
    refine ⟨"❌ ".data, "\n\nPlease try again (Attempt ".data
        ++ (toString (d.attempts + 1)).data ++ "/2)".data, ?_⟩
    simp [List.append_assoc]
  · intro h
    constructor <;> simp [handleSubmitResponse, h]

/-- Witness for the C8 amended theorem at concrete responses. -/
theorem rejection_hint_offer_text_witness :
    ((handleSubmitResponse sampleChat rejResp).1.messages
        = sampleChat.messages ++ [rejectedMsg rejResp.hint rejResp.attempts] ∧
      strIncludes (rejectedMsg rejResp.hint rejResp.attempts).text
          rejResp.hint = true) ∧
    ((handleSubmitResponse sampleChat offerResp).1.messages
        = sampleChat.messages ++ [offerMsg] ∧
      (handleSubmitResponse sampleChat offerResp).1.showAutoSuggest = true) :=
  ⟨(rejection_hint_offer_text sampleChat rejResp).1 rfl,
    (rejection_hint_offer_text sampleChat offerResp).2 rfl⟩

/-! ## C1: consent requires a prior offer, never rejections alone -/

theorem handleSubmitResponse_current (s : ChatState) (d : FillResponse) :
    (handleSubmitResponse s d).1.currentPlaceholder = s.currentPlaceholder := by
  unfold handleSubmitResponse
  split_ifs <;> rfl

theorem handleSubmit_current (s : ChatState) (d : FillResponse) :
    (handleSubmit s d).1.currentPlaceholder = s.currentPlaceholder := by
  unfold handleSubmit
  split_ifs
  · rfl
  · exact handleSubmitResponse_current _ d

theorem handleAccept_current (s : ChatState) (d : FillResponse) :
    (handleAcceptAutoSuggest s d).1.currentPlaceholder
      = s.currentPlaceholder := by
  unfold handleAcceptAutoSuggest
  split_ifs <;> rfl

theorem handleSubmitResponse_showAuto (s : ChatState) (d : FillResponse)
    (h : (handleSubmitResponse s d).1.showAutoSuggest = true) :
    (handleSubmitResponse s d).2 = false ∧
    (d.status = "offer_auto_suggest" ∨ s.showAutoSuggest = true) := by
  by_cases h1 : d.status = "accepted"
  · simp [handleSubmitResponse, h1] at h
  · by_cases h2 : d.status = "rejected"
    · refine ⟨by simp [handleSubmitResponse, h1, h2], Or.inr ?_⟩
      simpa [handleSubmitResponse, h1, h2] using h
    · by_cases h3 : d.status = "offer_auto_suggest"
      · exact ⟨by simp [handleSubmitResponse, h1, h2, h3], Or.inl h3⟩
      · by_cases h4 : d.status = "auto_filled"
        · simp [handleSubmitResponse, h1, h2, h3, h4] at h
        · refine ⟨by simp [handleSubmitResponse, h1, h2, h3, h4],
            Or.inr ?_⟩
          simpa [handleSubmitResponse, h1, h2, h3, h4] using h

theorem handleSubmitResponse_load_showAuto (s : ChatState) (d : FillResponse)
    (h : (handleSubmitResponse s d).2 = true) :
    (handleSubmitResponse s d).1.showAutoSuggest = false := by
  by_cases h1 : d.status = "accepted"
  · simp [handleSubmitResponse, h1]
  · by_cases h2 : d.status = "rejected"
    · simp [handleSubmitResponse, h1, h2] at h
    · by_cases h3 : d.status = "offer_auto_suggest"
      · simp [handleSubmitResponse, h1, h2, h3] at h
      · by_cases h4 : d.status = "auto_filled"
        · simp [handleSubmitResponse, h1, h2, h3, h4]
        · simp [handleSubmitResponse, h1, h2, h3, h4] at h

theorem handleSubmit_load_showAuto (s : ChatState) (d : FillResponse)
    (h : (handleSubmit s d).2.2 = true) :
    (handleSubmit s d).1.showAutoSuggest = false := by
  by_cases hno : trimJS s.input = "" ∨ s.currentPlaceholder = none
  · simp [handleSubmit, hno] at h
  · simp only [handleSubmit, hno, if_false] at h ⊢
    exact handleSubmitResponse_load_showAuto _ d h

theorem handleSubmit_showAuto (s : ChatState) (d : FillResponse)
    (hs : s.showAutoSuggest = false)
    (h : (handleSubmit s d).1.showAutoSuggest = true) :
    d.status = "offer_auto_suggest" ∧ (handleSubmit s d).2.2 = false := by
  by_cases hno : trimJS s.input = "" ∨ s.currentPlaceholder = none
  · rw [show handleSubmit s d = (s, none, false) by simp [handleSubmit, hno]]
      at h
    rw [hs] at h
    exact absurd h (by simp)
  · simp only [handleSubmit, hno, if_false] at h ⊢
    obtain ⟨hl, hor⟩ := handleSubmitResponse_showAuto _ d h
    rcases hor with ho | ho
    · exact ⟨ho, hl⟩
    · have ho2 : s.showAutoSuggest = true := ho
      rw [hs] at ho2
      exact absurd ho2 (by simp)

theorem handleAccept_load_showAuto (s : ChatState) (d : FillResponse)
    (h : (handleAcceptAutoSuggest s d).2.2 = true) :
    (handleAcceptAutoSuggest s d).1.showAutoSuggest = false := by
  by_cases h1 : d.status = "auto_filled"
  · simp [handleAcceptAutoSuggest, h1]
  · simp [handleAcceptAutoSuggest, h1] at h

theorem loadNextQuestion_showAuto (s : ChatState) (data : PlaceholdersData) :
    (loadNextQuestion s data).1.showAutoSuggest = s.showAutoSuggest := by
  unfold loadNextQuestion
  dsimp only
  split
  · split <;> rfl
  · rfl

theorem generateFinalDoc_showAuto (a : AppState) (r : GenResult) :
    (generateFinalDoc a r).chat.showAutoSuggest
      = a.chat.showAutoSuggest := by
  unfold generateFinalDoc
  cases r <;> rfl

theorem doLoad_showAuto (a : AppState) (data : PlaceholdersData)
    (gen : GenResult) :
    (doLoad a data gen).chat.showAutoSuggest = a.chat.showAutoSuggest := by
  unfold doLoad
  dsimp only
  split
  · rw [generateFinalDoc_showAuto]
    exact loadNextQuestion_showAuto a.chat data
  · exact loadNextQuestion_showAuto a.chat data

theorem initApp_showAuto (data : PlaceholdersData) (gen : GenResult) :
    (initApp data gen).chat.showAutoSuggest = false := by
  unfold initApp
  rw [doLoad_showAuto]
  rfl

theorem stepEvt_showAuto_cases (s : AppState) (e : Event)
    (hs : s.chat.showAutoSuggest = true → s.step = Step.chat)
    (h : (stepEvt s e).chat.showAutoSuggest = true) :
    (stepEvt s e).step = Step.chat ∧
    (stepEvt s e).chat.currentPlaceholder = s.chat.currentPlaceholder ∧
    (s.chat.showAutoSuggest = true ∧ e ≠ Event.skipSuggest ∨
      ∃ resp next gen, e = Event.submitForm resp next gen ∧
        resp.status = "offer_auto_suggest") := by
  by_cases hen : enabled s e = true
  case neg =>
    have hid : stepEvt s e = s := by simp [stepEvt, hen]
    rw [hid] at h ⊢
    refine ⟨hs h, rfl, Or.inl ⟨h, ?_⟩⟩
    intro he
    subst he
    exact hen (by simp [enabled, hs h, h])
  case pos =>
    cases e with
    | typeInput t =>
        exfalso
        simp only [enabled, Bool.and_eq_true, decide_eq_true_eq,
          Bool.not_eq_true'] at hen
        have hpre : (stepEvt s (Event.typeInput t)).chat.showAutoSuggest
            = s.chat.showAutoSuggest := by
          simp [stepEvt, applyEvent, enabled, hen.1, hen.2]
        rw [hpre, hen.2] at h
        exact absurd h (by simp)
    | skipSuggest =>
        exfalso
        have hfin : (stepEvt s Event.skipSuggest).chat.showAutoSuggest
            = false := by
          simp [stepEvt, hen, applyEvent, handleSkipAutoSuggest]
        rw [hfin] at h
        exact absurd h (by simp)
    | submitForm resp next gen =>
        have hen2 := hen
        simp only [enabled, Bool.and_eq_true, decide_eq_true_eq,
          Bool.not_eq_true'] at hen2
        obtain ⟨hstep, hsa⟩ := hen2
        by_cases hl : (handleSubmit s.chat resp).2.2 = true
        · exfalso
          have hfin : (stepEvt s (Event.submitForm resp next gen)).chat.showAutoSuggest
              = false := by
            have hrw : stepEvt s (Event.submitForm resp next gen)
                = doLoad { s with chat := (handleSubmit s.chat resp).1 }
                    next gen := by
              simp [stepEvt, hen, applyEvent, hl]
            rw [hrw, doLoad_showAuto]
            exact handleSubmit_load_showAuto s.chat resp hl
          rw [hfin] at h
          exact absurd h (by simp)
        · have hfb : (handleSubmit s.chat resp).2.2 = false := by
            cases hq : (handleSubmit s.chat resp).2.2
            · rfl
            · exact absurd hq hl
          have hres : stepEvt s (Event.submitForm resp next gen)
              = { s with chat := (handleSubmit s.chat resp).1 } := by
            simp [stepEvt, hen, applyEvent, hfb]
          rw [hres] at h ⊢
          obtain ⟨ho, _⟩ := handleSubmit_showAuto s.chat resp hsa h
          exact ⟨hstep, handleSubmit_current s.chat resp,
            Or.inr ⟨resp, next, gen, rfl, ho⟩⟩
    | acceptSuggest resp next gen =>
        have hen2 := hen
        simp only [enabled, Bool.and_eq_true, decide_eq_true_eq] at hen2
        obtain ⟨hstep, hsa⟩ := hen2
        by_cases hl : (handleAcceptAutoSuggest s.chat resp).2.2 = true
        · exfalso
          have hfin : (stepEvt s (Event.acceptSuggest resp next gen)).chat.showAutoSuggest
              = false := by
            have hrw : stepEvt s (Event.acceptSuggest resp next gen)
                = doLoad { s with chat := (handleAcceptAutoSuggest s.chat resp).1 }
                    next gen := by
              simp [stepEvt, hen, applyEvent, hl]
            rw [hrw, doLoad_showAuto]
            exact handleAccept_load_showAuto s.chat resp hl
          rw [hfin] at h
          exact absurd h (by simp)
        · have hfb : (handleAcceptAutoSuggest s.chat resp).2.2 = false := by
            cases hq : (handleAcceptAutoSuggest s.chat resp).2.2
            · rfl
            · exact absurd hq hl
          have hres : stepEvt s (Event.acceptSuggest resp next gen)
              = { s with chat := (handleAcceptAutoSuggest s.chat resp).1 } := by
            simp [stepEvt, hen, applyEvent, hfb]
          rw [hres] at h ⊢
          exact ⟨hstep, handleAccept_current s.chat resp,
            Or.inl ⟨hsa, by intro hx; cases hx⟩⟩

theorem handleSubmit_req_consent (s : ChatState) (d : FillResponse)
    (q : FillRequest) (hq : q ∈ (handleSubmit s d).2.1.toList) :
    q.consent_auto_suggest = s.showAutoSuggest := by
  by_cases hno : trimJS s.input = "" ∨ s.currentPlaceholder = none
  · simp [handleSubmit, hno] at hq
  · simp only [handleSubmit, hno, if_false, Option.toList_some,
      List.mem_singleton] at hq
    subst hq
    rfl

theorem emitted_consent (s : AppState) (e : Event) (r : FillRequest)
    (hr : r ∈ emitted s e) (hc : r.consent_auto_suggest = true) :
    s.chat.showAutoSuggest = true := by
  by_cases hen : enabled s e = true
  case neg => simp [emitted, hen] at hr
  case pos =>
    cases e with
    | typeInput t => simp [emitted, hen, applyEvent] at hr
    | skipSuggest => simp [emitted, hen, applyEvent] at hr
    | submitForm resp next gen =>
        exfalso
        have hr2 : r ∈ (handleSubmit s.chat resp).2.1.toList := by
          simpa [emitted, hen, applyEvent] using hr
        have hcs := handleSubmit_req_consent s.chat resp r hr2
        simp only [enabled, Bool.and_eq_true, decide_eq_true_eq,
          Bool.not_eq_true'] at hen
        rw [hen.2] at hcs
        rw [hcs] at hc
        exact absurd hc (by simp)
    | acceptSuggest resp next gen =>
        simp only [enabled, Bool.and_eq_true, decide_eq_true_eq] at hen
        exact hen.2

theorem runTrace_append_one (a : AppState) (l : List Event) (x : Event) :
    runTrace a (l ++ [x]) = stepEvt (runTrace a l) x := by
  simp [runTrace, List.foldl_append]

theorem showAuto_offer_history (data : PlaceholdersData) (gen : GenResult)
    (evts : List Event)
    (h : (runTrace (initApp data gen) evts).chat.showAutoSuggest = true) :
    (runTrace (initApp data gen) evts).step = Step.chat ∧
    ∃ pre resp next gen2 post,
      evts = pre ++ Event.submitForm resp next gen2 :: post ∧
      resp.status = "offer_auto_suggest" ∧
      (runTrace (initApp data gen)
        (pre ++ [Event.submitForm resp next gen2])).chat.showAutoSuggest
          = true ∧
      (runTrace (initApp data gen)
        (pre ++ [Event.submitForm resp next gen2])).chat.currentPlaceholder
          = (runTrace (initApp data gen) evts).chat.currentPlaceholder ∧
      ∀ e2 ∈ post, e2 ≠ Event.skipSuggest := by
  induction evts using List.reverseRecOn with
  | nil =>
      exfalso
      simp only [runTrace, List.foldl_nil] at h
      rw [initApp_showAuto] at h
      exact absurd h (by simp)
  | append_singleton l x ih =>
      rw [runTrace_append_one] at h
      obtain ⟨hstep1, hcur, hcase⟩ :=
        stepEvt_showAuto_cases (runTrace (initApp data gen) l) x
          (fun hsa => (ih hsa).1) h
      rw [runTrace_append_one]
      refine ⟨hstep1, ?_⟩
      rcases hcase with ⟨hsa, hxne⟩ | ⟨resp, next, gen2, rfl, hoffer⟩
      · obtain ⟨_, pre, resp, next, gen2, post, heq, hst, hsh, hcur2,
          hskips⟩ := ih hsa
        refine ⟨pre, resp, next, gen2, post ++ [x], ?_, hst, hsh, ?_, ?_⟩
        · rw [heq]
          simp
        · rw [hcur, hcur2]
        · intro e2 he2
          rcases List.mem_append.mp he2 with hin | hin
          · exact hskips e2 hin
          · rw [List.mem_singleton.mp hin]
            exact hxne
      · refine ⟨l, resp, next, gen2, [], rfl, hoffer, ?_, ?_, by simp⟩
        · rw [runTrace_append_one]
          exact h
        · rw [runTrace_append_one]

/-- C1: every `/fill_placeholder` request body carrying
`consent_auto_suggest = true` comes from a point where the consent flag is
set, and the flag can only stem from an earlier `offer_auto_suggest`
response for the placeholder that is still active, with no skip (decline)
event since that offer; a trace of rejected submissions alone contains no
offer response, so it can never produce a consenting submission. -/
theorem consent_requires_offer (data : PlaceholdersData) (gen : GenResult)
    (evts : List Event) (e : Event) (r : FillRequest)
    (hr : r ∈ emitted (runTrace (initApp data gen) evts) e)
    (hc : r.consent_auto_suggest = true) :
    ∃ pre resp next gen2 post,
      evts = pre ++ Event.submitForm resp next gen2 :: post ∧
      resp.status = "offer_auto_suggest" ∧
      (runTrace (initApp data gen)
        (pre ++ [Event.submitForm resp next gen2])).chat.showAutoSuggest
          = true ∧
      (runTrace (initApp data gen)
        (pre ++ [Event.submitForm resp next gen2])).chat.currentPlaceholder
          = (runTrace (initApp data gen) evts).chat.currentPlaceholder ∧
      ∀ e2 ∈ post, e2 ≠ Event.skipSuggest :=
  (showAuto_offer_history data gen evts
    (emitted_consent _ e r hr hc)).2

/-- Witness for C1: in a concrete session where one answer is typed and
submitted and the backend answers `offer_auto_suggest`, clicking the
accept button emits the consenting request, and the trace decomposes
around that offer. -/
theorem consent_requires_offer_witness :
    ∃ pre resp next gen2 post,
      c1Evts = pre ++ Event.submitForm resp next gen2 :: post ∧
      resp.status = "offer_auto_suggest" ∧
      (runTrace (initApp c1Data c1Gen)
        (pre ++ [Event.submitForm resp next gen2])).chat.showAutoSuggest
          = true ∧
      (runTrace (initApp c1Data c1Gen)
        (pre ++ [Event.submitForm resp next gen2])).chat.currentPlaceholder
          = (runTrace (initApp c1Data c1Gen) c1Evts).chat.currentPlaceholder ∧
      ∀ e2 ∈ post, e2 ≠ Event.skipSuggest :=
  consent_requires_offer c1Data c1Gen c1Evts c1Accept c1Req
    (by decide) (by decide)

end DocFiller

